import Mathlib

/-!
Shallow embedding of the MyJarvis BBC scraping pipeline:
`db_manager.py` (deduplicating SQLite store), `bbc_scraper.py` and `bbc.py`
(link discovery, content extraction, orchestration) and `app.py`
(paginated read API).  Machine timestamps are modelled as naturals supplied
by the caller (`datetime.now()` becomes an explicit `now` argument);
HTTP fetches are modelled by an oracle returning either a response with a
status code and a parsed document, or a raised transport exception
(`Except` models Python exceptions; a `try/except` block is a `match` on
the `Except` value).
-/

namespace MyJarvis

/-- Python substring test `pat in s`, checked at every suffix position. -/
def containsFrom (pat : List Char) : List Char → Bool
  | [] => pat.isEmpty
  | c :: cs => pat.isPrefixOf (c :: cs) || containsFrom pat cs

/-- `strContains s pat` is Python's `pat in s` on strings. -/
def strContains (s pat : String) : Bool :=
  containsFrom pat.toList s.toList

/-- The single-quote character, the string-literal delimiter of SQL. -/
def quoteChar : Char := Char.ofNat 39

/-- A one-character string holding a single quote. -/
def sq : String := String.mk [quoteChar]

/-- Python's `str.strip()`: remove leading and trailing whitespace
(modelled on the code-point sequence). -/
def pyStrip (s : String) : String :=
  String.mk (((s.toList.dropWhile Char.isWhitespace).reverse.dropWhile
    Char.isWhitespace).reverse)

/-- Python's slice `s[:n]`: the first `n` code points of `s`. -/
def pySlice (s : String) (n : Nat) : String :=
  String.mk (s.toList.take n)

/-- Python's `str.lower()`: lower-case each code point. -/
def pyLower (s : String) : String :=
  String.mk (s.toList.map Char.toLower)

/-- Python's `sep.join(l)`. -/
def pyJoin (sep : String) : List String → String
  | [] => ""
  | [x] => x
  | x :: y :: xs => x ++ sep ++ pyJoin sep (y :: xs)

namespace DbManager

/-- One row of the `articles` table created by `setup_database`
(`id` autoincrementing surrogate key, `url` the natural key,
`date_scraped` set by the store at insert time). -/
structure Row where
  id : Nat
  title : String
  url : String
  body : String
  is_live : Bool
  date_scraped : Nat
  deriving Repr, DecidableEq

/-- The article dictionary passed to `save_article` by the orchestrator. -/
structure ArticleData where
  title : String
  url : String
  body : String
  live : Bool
  deriving Repr, DecidableEq

/-- The SQLite database state: rows in insertion order plus the
autoincrement counter for `id`. -/
structure Store where
  rows : List Row
  nextId : Nat
  deriving Repr, DecidableEq

/-- `setup_database`: creates the empty `articles` table
(`CREATE TABLE IF NOT EXISTS`, so a fresh store starts with no rows). -/
def setup_database : Store := { rows := [], nextId := 1 }

/-- `article_exists`: `SELECT COUNT(*) FROM articles WHERE url = ?` is
positive iff some row carries exactly that url. -/
def article_exists (st : Store) (url : String) : Bool :=
  st.rows.any (fun r => r.url == url)

/-- `save_article`: returns `False` without touching the store when the
url already exists, otherwise inserts a fresh row (store-assigned `id`
and `date_scraped := now`) and returns `True`. -/
def save_article (st : Store) (a : ArticleData) (now : Nat) : Bool × Store :=
  if article_exists st a.url then
    (false, st)
  else
    (true,
      { rows := st.rows ++ [⟨st.nextId, a.title, a.url, a.body, a.live, now⟩],
        nextId := st.nextId + 1 })

/-- `get_total_count`: `SELECT COUNT(*) FROM articles`. -/
def get_total_count (st : Store) : Nat := st.rows.length

/-- `delete_article`: `DELETE FROM articles WHERE url = ?`; returns whether
any row was removed (`cursor.rowcount > 0`). -/
def delete_article (st : Store) (url : String) : Bool × Store :=
  (st.rows.any (fun r => r.url == url),
    { st with rows := st.rows.filter (fun r => ¬ (r.url == url)) })

/-- Stable insertion step of `ORDER BY date_scraped DESC`: walk past rows
with a strictly larger timestamp, settle in front of the first row whose
timestamp is not larger (so rows with equal timestamps keep their original
relative order). -/
def insertDesc (r : Row) : List Row → List Row
  | [] => [r]
  | y :: ys => if r.date_scraped < y.date_scraped then y :: insertDesc r ys else r :: y :: ys

/-- `ORDER BY date_scraped DESC`, modelled as a stable insertion sort of
the rows (ties keep insertion order, matching the rowid scan order). -/
def sortByDateDesc : List Row → List Row
  | [] => []
  | x :: xs => insertDesc x (sortByDateDesc xs)

/-- `get_recent_articles`: `ORDER BY date_scraped DESC LIMIT limit`. -/
def get_recent_articles (st : Store) (limit : Nat) : List Row :=
  (sortByDateDesc st.rows).take limit

/-- `get_all_articles`: every row, `ORDER BY date_scraped DESC`. -/
def get_all_articles (st : Store) : List Row :=
  sortByDateDesc st.rows

/-- SQLite `LIKE` with a pattern wrapped in percent wildcards:
case-insensitive substring containment. -/
def likeMatch (text pat : String) : Bool :=
  strContains (pyLower text) (pyLower pat)

/-- The exact SQL text built by `search_articles`: the keyword is
interpolated verbatim (twice) inside single-quoted `LIKE` patterns. -/
def searchQuery (keyword : String) : String :=
  "SELECT title, url, body, is_live, date_scraped FROM articles WHERE title LIKE "
    ++ sq ++ "%" ++ keyword ++ "%" ++ sq
    ++ " OR body LIKE " ++ sq ++ "%" ++ keyword ++ "%" ++ sq
    ++ " ORDER BY date_scraped DESC"

/-- A lexed piece of SQL text: a character outside string literals, or a
complete single-quoted literal with its content. -/
inductive SqlPiece where
  | ch (c : Char)
  | lit (s : String)
  deriving Repr, DecidableEq

/-- Scan a single-quoted SQL string literal after its opening quote,
handling the doubled-quote escape; returns the content and the rest of
the text, or `none` on an unterminated literal. -/
def lexLit (acc : String) : List Char → Option (String × List Char)
  | [] => none
  | c :: cs =>
    if c == quoteChar then
      match cs with
      | d :: ds => if d == quoteChar then lexLit (acc.push quoteChar) ds else some (acc, cs)
      | [] => some (acc, [])
    else lexLit (acc.push c) cs

/-- Fuel-driven lexer for SQL text: splits it into plain characters and
closed string literals (one unit of fuel per consumed character is always
enough). -/
def lexSqlAux : Nat → List Char → Option (List SqlPiece)
  | _, [] => some []
  | 0, _ :: _ => none
  | fuel + 1, c :: cs =>
    if c == quoteChar then
      match lexLit "" cs with
      | none => none
      | some (content, rest) => (lexSqlAux fuel rest).map (fun ps => .lit content :: ps)
    else
      (lexSqlAux fuel cs).map (fun ps => .ch c :: ps)

/-- Lex a SQL statement into pieces; `none` models a lexical error
(unterminated string literal). -/
def lexSql (s : String) : Option (List SqlPiece) :=
  lexSqlAux s.length s.toList

/-- The piece stream with literal contents erased (`none` marks a
literal slot). -/
def sqlSkeleton (ps : List SqlPiece) : List (Option Char) :=
  ps.map (fun p => match p with | .ch c => some c | .lit _ => none)

/-- The literal contents of a piece stream, in order. -/
def sqlLiterals (ps : List SqlPiece) : List String :=
  ps.filterMap (fun p => match p with | .lit s => some s | .ch _ => none)

/-- The skeleton of the one statement shape the search grammar accepts:
the fixed query text with the two `LIKE` pattern literals as slots. -/
def expectedSearchSkeleton : List (Option Char) :=
  ("SELECT title, url, body, is_live, date_scraped FROM articles WHERE title LIKE ".toList.map some)
    ++ [none]
    ++ (" OR body LIKE ".toList.map some)
    ++ [none]
    ++ (" ORDER BY date_scraped DESC".toList.map some)

/-- Strip the leading and trailing `%` wildcard of a `LIKE` pattern of the
form the store builds; `none` when the pattern is not of that form. -/
def stripPercents (s : String) : Option String :=
  match s.toList with
  | [] => none
  | c :: cs =>
    if c == '%' then
      match cs.reverse with
      | [] => none
      | d :: ds => if d == '%' then some (String.mk ds.reverse) else none
    else none

/-- Model of the database engine on the search statement: the text must
lex, its skeleton must be exactly the search query's grammar shape, and
its two literals must be percent-wrapped patterns; then it answers the
two extracted keywords.  Any other text — as arises when an interpolated
keyword carries a quote that re-lexes the statement — is a syntax error
(`none`). -/
def searchPlan (q : String) : Option (String × String) :=
  match lexSql q with
  | none => none
  | some ps =>
    if sqlSkeleton ps = expectedSearchSkeleton then
      match sqlLiterals ps with
      | [l1, l2] =>
        match stripPercents l1, stripPercents l2 with
        | some k1, some k2 => some (k1, k2)
        | _, _ => none
      | _ => none
    else none

/-- `search_articles`: runs the f-string-built `searchQuery` text through
the engine; a parsed plan returns the rows whose title or body match the
extracted patterns, ordered by date descending; a failed parse is the
database error raised by `pd.read_sql_query`, modelled as `none`. -/
def search_articles (st : Store) (keyword : String) : Option (List Row) :=
  (searchPlan (searchQuery keyword)).map
    (fun kk => sortByDateDesc (st.rows.filter
      (fun r => likeMatch r.title kk.1 || likeMatch r.body kk.2)))

/-- States reachable from a fresh database through the store's own
mutating operations. -/
inductive Reachable : Store → Prop where
  | setup : Reachable setup_database
  | save (a : ArticleData) (now : Nat) {st : Store} :
      Reachable st → Reachable (save_article st a now).2
  | delete (url : String) {st : Store} :
      Reachable st → Reachable (delete_article st url).2

end DbManager

/-- A candidate link produced by homepage discovery:
`{"title": ..., "url": ..., "live": ...}`. -/
structure Candidate where
  title : String
  url : String
  live : Bool
  deriving Repr, DecidableEq

/-- A parsed standard-article page: the text of the first `h1` (when one
exists) and, when an `article` element exists, the raw texts of the `p`
elements inside it. -/
structure Doc where
  h1 : Option String
  article : Option (List String)
  deriving Repr, DecidableEq

/-- A parsed live page: the `#summaryPoints` list items, each optionally
holding the text of a nested `p` element. -/
structure LiveDoc where
  items : List (Option String)
  deriving Repr, DecidableEq

/-- The `{title, body, url}` dictionary returned by `get_article_content`. -/
structure Content where
  title : String
  body : String
  url : String
  deriving Repr, DecidableEq

/-- The `{body, url}` dictionary returned by `get_live_article_content`. -/
structure LiveContent where
  body : String
  url : String
  deriving Repr, DecidableEq

/-- Outcome of one `requests.get` call: either a response carrying a
status code and a parsed document, or a raised transport exception. -/
inductive FetchResult (α : Type) where
  | resp (status : Nat) (doc : α)
  | exn (msg : String)
  deriving Repr, DecidableEq

/-- `requests.get` itself: a response is returned normally, a transport
failure is a raised (`Except.error`) Python exception. -/
def requests_get {α : Type} : FetchResult α → Except String (Nat × α)
  | .resp s d => .ok (s, d)
  | .exn m => .error m

/-- The body text a standard extraction builds before any truncation:
paragraph texts stripped, empty ones skipped, joined by single spaces
(`" ".join([p.text.strip() for p in paragraphs if p.text.strip()])`). -/
def joinParagraphs (paras : List String) : String :=
  pyJoin " " ((paras.map pyStrip).filter (fun s => ¬ s.isEmpty))

/-- The live summary accumulation loop: each list item holding a `p`
contributes its text followed by a period and a space. -/
def collectSummary (items : List (Option String)) : String :=
  items.foldl
    (fun acc p => match p with
      | some t => acc ++ t ++ ". "
      | none => acc)
    ""

namespace BbcScraper

/-- The per-card classification inside `bbc_scraper.get_bbc_article_links`
(lines 76-88), applied to the absolute link of a regular featured card:
`is_live` is set when the link contains `/live/`, then the card is dropped
(`continue`) when the link contains `/av/` or `/videos/`; `none` models a
dropped candidate, `some b` a kept candidate with `live = b`. -/
def classifyCard (link : String) : Option Bool :=
  let is_live := strContains link "/live/"
  if strContains link "/av/" || strContains link "/videos/" then none
  else some is_live

/-- `bbc_scraper.get_article_content`: the whole body is a `try` block, so
a raised transport exception yields `None`; a non-200 status yields `None`;
a missing `article` element yields `None`; otherwise the stripped non-empty
paragraphs are joined with spaces and the result truncated to its first
600 characters (`body_text[:600]`). -/
def get_article_content (article_url : String) (fr : FetchResult Doc) : Option Content :=
  match requests_get fr with
  | .error _ => none
  | .ok (status, doc) =>
    if status ≠ 200 then none
    else
      let title := (doc.h1.map pyStrip).getD ""
      match doc.article with
      | none => none
      | some paras =>
        let body_text := joinParagraphs paras
        some ⟨title, pySlice body_text 600, article_url⟩

/-- `bbc_scraper.get_live_article_content`: exception or non-200 yields
`None`; otherwise the summary points are folded into one string (an empty
item list gives an empty body, still a present result). -/
def get_live_article_content (article_url : String) (fr : FetchResult LiveDoc) :
    Option LiveContent :=
  match requests_get fr with
  | .error _ => none
  | .ok (status, doc) =>
    if status ≠ 200 then none
    else some ⟨collectSummary doc.items, article_url⟩

/-- One iteration of the loop in `scrape_bbc_articles_to_db`: skip without
fetching when the url already exists; otherwise fetch and extract along the
`live` branch, then save when extraction produced content.  Returns the new
store, the increment to `articles_saved`, and the urls fetched (for cost
accounting). -/
def processCandidate (fs : String → FetchResult Doc) (fl : String → FetchResult LiveDoc)
    (db : DbManager.Store) (now : Nat) (c : Candidate) :
    DbManager.Store × Nat × List String :=
  if DbManager.article_exists db c.url then
    (db, 0, [])
  else
    let article_data : Option DbManager.ArticleData :=
      if c.live then
        match get_live_article_content c.url (fl c.url) with
        | some lc => some ⟨c.title, lc.url, lc.body, true⟩
        | none => none
      else
        match get_article_content c.url (fs c.url) with
        | some ac => some ⟨ac.title, ac.url, ac.body, false⟩
        | none => none
    match article_data with
    | some a =>
      let (saved, db2) := DbManager.save_article db a now
      (db2, if saved then 1 else 0, [c.url])
    | none => (db, 0, [c.url])

/-- The candidate loop of `scrape_bbc_articles_to_db`, threading the store,
summing the saved count and concatenating the fetch log; the clock ticks
between iterations. -/
def scrapeLoop (fs : String → FetchResult Doc) (fl : String → FetchResult LiveDoc) :
    List Candidate → DbManager.Store → Nat → Nat × DbManager.Store × List String
  | [], db, _ => (0, db, [])
  | c :: cs, db, now =>
    let (db2, inc, fetched) := processCandidate fs fl db now c
    let (n, db3, rest) := scrapeLoop fs fl cs db2 (now + 1)
    (inc + n, db3, fetched ++ rest)

/-- `bbc_scraper.scrape_bbc_articles_to_db`: returns 0 on an empty
discovery result, otherwise runs the loop over the first `max_articles`
candidates and returns the count of newly saved articles (with the final
store and the fetch log). -/
def scrape_bbc_articles_to_db (fs : String → FetchResult Doc)
    (fl : String → FetchResult LiveDoc) (article_links : List Candidate)
    (db : DbManager.Store) (max_articles now : Nat) :
    Nat × DbManager.Store × List String :=
  if article_links.isEmpty then (0, db, [])
  else scrapeLoop fs fl (article_links.take max_articles) db now

end BbcScraper

namespace Bbc

/-- The per-headline classification inside `bbc.get_bbc_article_links`
(lines 54-69): a link containing `/live/` is appended with `live=True` and
the loop continues; otherwise a link containing `/av/` is skipped;
otherwise the link is appended with `live=False`. -/
def classifyHeadline (link : String) : Option Bool :=
  if strContains link "/live/" then some true
  else if strContains link "/av/" then none
  else some false

/-- `bbc.get_article_content`: as the scraper variant but without the
`[:600]` truncation — the full joined paragraph text is returned. -/
def get_article_content (article_url : String) (fr : FetchResult Doc) : Option Content :=
  match requests_get fr with
  | .error _ => none
  | .ok (status, doc) =>
    if status ≠ 200 then none
    else
      let title := (doc.h1.map pyStrip).getD ""
      match doc.article with
      | none => none
      | some paras => some ⟨title, joinParagraphs paras, article_url⟩

/-- `bbc.get_live_article_content`: identical to the scraper variant. -/
def get_live_article_content (article_url : String) (fr : FetchResult LiveDoc) :
    Option LiveContent :=
  match requests_get fr with
  | .error _ => none
  | .ok (status, doc) =>
    if status ≠ 200 then none
    else some ⟨collectSummary doc.items, article_url⟩

/-- The candidate loop of `bbc.scrape_bbc_articles` (lines 177-195).  On
the live branch the code runs `article_data["title"] = ...` without first
checking for `None`, so an absent live fetch raises a `TypeError` that
propagates out of the loop (`Except.error`); successfully scraped contents
are collected in order. -/
def bbcLoop (fs : String → FetchResult Doc) (fl : String → FetchResult LiveDoc) :
    List Candidate → Except String (List Content)
  | [] => .ok []
  | c :: cs => do
    let article_data : Option Content ←
      if c.live then
        match get_live_article_content c.url (fl c.url) with
        | none => Except.error "TypeError: NoneType object does not support item assignment"
        | some lc => pure (some ⟨c.title, lc.body, lc.url⟩)
      else
        pure ((get_article_content c.url (fs c.url)).map (fun a => ⟨a.title, a.body, a.url⟩))
    let rest ← bbcLoop fs fl cs
    match article_data with
    | some a => pure (a :: rest)
    | none => pure rest

/-- `bbc.scrape_bbc_articles`: empty discovery yields an empty frame,
otherwise the loop runs over the first `max_articles` candidates; any
exception raised inside the loop propagates out of the run. -/
def scrape_bbc_articles (fs : String → FetchResult Doc)
    (fl : String → FetchResult LiveDoc) (article_links : List Candidate)
    (max_articles : Nat) : Except String (List Content) :=
  if article_links.isEmpty then .ok []
  else bbcLoop fs fl (article_links.take max_articles)

end Bbc

namespace App

/-- The response model of `GET /articles` (`ArticleList`). -/
structure ArticleList where
  articles : List DbManager.Row
  count : Nat
  page : Nat
  total_pages : Nat
  total_count : Nat
  deriving Repr, DecidableEq

/-- The rows matching the optional keyword filter of `GET /articles`
(parameterized `LIKE` on title or body, identical in the page query and
the count query). -/
def matchingRows (st : DbManager.Store) (keyword : Option String) : List DbManager.Row :=
  match keyword with
  | none => st.rows
  | some k => st.rows.filter
      (fun r => DbManager.likeMatch r.title k || DbManager.likeMatch r.body k)

/-- `app.get_articles`: matching rows ordered by `date_scraped DESC`,
sliced by `LIMIT limit OFFSET (page-1)*limit`, with
`total_pages = (total_count + limit - 1) // limit`. -/
def get_articles (st : DbManager.Store) (page limit : Nat) (keyword : Option String) :
    ArticleList :=
  let m := matchingRows st keyword
  let sorted := DbManager.sortByDateDesc m
  let offset := (page - 1) * limit
  let items := (sorted.drop offset).take limit
  let total_count := m.length
  let total_pages := (total_count + limit - 1) / limit
  ⟨items, items.length, page, total_pages, total_count⟩

end App

/-! Helper lemmas about the store. -/

/-- Evaluation of `save_article` when the url is already present. -/
theorem save_article_exists_eq {st : DbManager.Store} {a : DbManager.ArticleData}
    {now : Nat} (h : DbManager.article_exists st a.url = true) :
    DbManager.save_article st a now = (false, st) := by
  simp [DbManager.save_article, h]

/-- Evaluation of `save_article` when the url is absent. -/
theorem save_article_not_exists_eq {st : DbManager.Store} {a : DbManager.ArticleData}
    {now : Nat} (h : DbManager.article_exists st a.url = false) :
    DbManager.save_article st a now =
      (true, ⟨st.rows ++ [⟨st.nextId, a.title, a.url, a.body, a.live, now⟩],
        st.nextId + 1⟩) := by
  simp [DbManager.save_article, h]

/-- A url reported absent by `article_exists` matches no row. -/
theorem countP_eq_zero_of_not_exists {st : DbManager.Store} {u : String}
    (h : DbManager.article_exists st u = false) :
    st.rows.countP (fun r => r.url == u) = 0 := by
  refine List.countP_eq_zero.mpr ?_
  intro r hr
  have h2 : ∀ r ∈ st.rows, ¬ r.url = u := by
    simpa [DbManager.article_exists, List.any_eq_false] using h
  simpa using h2 r hr

/-- A url reported absent by `article_exists` is carried by no row. -/
theorem not_mem_urls_of_not_exists {st : DbManager.Store} {u : String}
    (h : DbManager.article_exists st u = false) :
    u ∉ st.rows.map (fun r => r.url) := by
  intro hmem
  rcases List.mem_map.mp hmem with ⟨r, hr, hu⟩
  have h2 : ∀ r ∈ st.rows, ¬ r.url = u := by
    simpa [DbManager.article_exists, List.any_eq_false] using h
  exact h2 r hr hu

/-- Among rows with pairwise distinct urls, a url reported present by
`article_exists` is carried by exactly one row. -/
theorem countP_eq_one_of_nodup_of_exists {l : List DbManager.Row} {u : String}
    (hn : (l.map (fun r => r.url)).Nodup)
    (h : l.any (fun r => r.url == u) = true) :
    l.countP (fun r => r.url == u) = 1 := by
  induction l with
  | nil => simp at h
  | cons r rs ih =>
    have hn2 : (∀ s ∈ rs, ¬ s.url = r.url) ∧ (rs.map (fun r => r.url)).Nodup := by
      simpa [List.nodup_cons] using hn
    by_cases hcase : r.url = u
    · have hzero : rs.countP (fun s => s.url == u) = 0 := by
        refine List.countP_eq_zero.mpr ?_
        intro s hs hsu
        exact hn2.1 s hs (by rw [hcase]; simpa using hsu)
      simp [List.countP_cons, hcase, hzero]
    · have hany : rs.any (fun s => s.url == u) = true := by
        rcases List.any_eq_true.mp h with ⟨s, hs, hsu⟩
        rcases List.mem_cons.mp hs with rfl | hmem
        · exact absurd (by simpa using hsu) hcase
        · exact List.any_eq_true.mpr ⟨s, hmem, hsu⟩
      simp [List.countP_cons, hcase, ih hn2.2 hany]

/-- C3 body: every state reachable through the store's own operations has
pairwise distinct urls. -/
theorem reachable_nodup_aux :
    ∀ {st : DbManager.Store}, DbManager.Reachable st →
      (st.rows.map (fun r => r.url)).Nodup := by
  intro st h
  induction h with
  | setup => simp [DbManager.setup_database]
  | @save a now st' _ ih =>
    by_cases hex : DbManager.article_exists st' a.url
    · simp [save_article_exists_eq hex, ih]
    · have hnm := not_mem_urls_of_not_exists (u := a.url) (by simpa using hex)
      rw [save_article_not_exists_eq (by simpa using hex)]
      simp only [List.map_append, List.map_cons, List.map_nil]
      refine List.Nodup.append ih (by simp) ?_
      intro x hx hy
      simp only [List.mem_singleton] at hy
      subst hy
      exact hnm hx
  | @delete url st' _ ih =>
    exact List.Nodup.sublist (List.Sublist.map _ (List.filter_sublist _)) ih

/-- C1 (`confirmed`).  Saving an article whose url is already stored
returns `false` and leaves the store untouched (`total_count` included,
and — under the url-uniqueness invariant — exactly one row with that url
remains); saving the same url twice from a state where it was absent
stores it exactly once, with the second call returning `false` and
changing nothing. -/
theorem c1_save_dedup_idempotence :
    (∀ (st : DbManager.Store) (a : DbManager.ArticleData) (now : Nat),
      DbManager.article_exists st a.url = true →
        (DbManager.save_article st a now).1 = false ∧
        (DbManager.save_article st a now).2 = st ∧
        DbManager.get_total_count (DbManager.save_article st a now).2 =
          DbManager.get_total_count st ∧
        ((st.rows.map (fun r => r.url)).Nodup →
          (DbManager.save_article st a now).2.rows.countP
            (fun r => r.url == a.url) = 1)) ∧
    (∀ (st : DbManager.Store) (a a2 : DbManager.ArticleData) (n1 n2 : Nat),
      a2.url = a.url →
      DbManager.article_exists st a.url = false →
        (DbManager.save_article st a n1).1 = true ∧
        (DbManager.save_article (DbManager.save_article st a n1).2 a2 n2).1 = false ∧
        (DbManager.save_article (DbManager.save_article st a n1).2 a2 n2).2 =
          (DbManager.save_article st a n1).2 ∧
        (DbManager.save_article st a n1).2.rows.countP
          (fun r => r.url == a.url) = 1) := by
  constructor
  · intro st a now hex
    refine ⟨by simp [save_article_exists_eq hex], by simp [save_article_exists_eq hex],
      by simp [save_article_exists_eq hex], ?_⟩
    intro hnd
    have := countP_eq_one_of_nodup_of_exists hnd (by simpa [DbManager.article_exists] using hex)
    simpa [save_article_exists_eq hex] using this
  · intro st a a2 n1 n2 hurl hex
    have hzero := countP_eq_zero_of_not_exists hex
    have hrows : (DbManager.save_article st a n1).2.rows =
        st.rows ++ [⟨st.nextId, a.title, a.url, a.body, a.live, n1⟩] := by
      rw [save_article_not_exists_eq hex]
    have hcount : (DbManager.save_article st a n1).2.rows.countP
        (fun r => r.url == a.url) = 1 := by
      simp [hrows, List.countP_append, hzero, List.countP_cons]
    have hex2 : DbManager.article_exists (DbManager.save_article st a n1).2 a2.url = true := by
      simp [DbManager.article_exists, hrows, hurl]
    refine ⟨by simp [save_article_not_exists_eq hex], ?_, ?_, hcount⟩
    · rw [save_article_exists_eq hex2]
    · rw [save_article_exists_eq hex2]

/-- A demonstration article used to instantiate hypotheses of the store
theorems. -/
def demoArticle : DbManager.ArticleData := ⟨"t1", "u1", "b1", false⟩

/-- A second article sharing `demoArticle`'s url. -/
def demoArticleDup : DbManager.ArticleData := ⟨"t2", "u1", "b2", true⟩

/-- A store already holding `demoArticle`'s url. -/
def demoStoreWithU1 : DbManager.Store :=
  ⟨[⟨1, "t1", "u1", "b1", false, 0⟩], 2⟩

/-- Witness for C1 at concrete inputs: the present-url direction on a
one-row store and the save-twice direction from the fresh store. -/
theorem c1_save_dedup_idempotence_witness :
    ((DbManager.save_article demoStoreWithU1 demoArticleDup 7).1 = false ∧
      (DbManager.save_article demoStoreWithU1 demoArticleDup 7).2 = demoStoreWithU1 ∧
      DbManager.get_total_count (DbManager.save_article demoStoreWithU1 demoArticleDup 7).2 =
        DbManager.get_total_count demoStoreWithU1 ∧
      ((demoStoreWithU1.rows.map (fun r => r.url)).Nodup →
        (DbManager.save_article demoStoreWithU1 demoArticleDup 7).2.rows.countP
          (fun r => r.url == demoArticleDup.url) = 1)) ∧
    ((DbManager.save_article DbManager.setup_database demoArticle 3).1 = true ∧
      (DbManager.save_article (DbManager.save_article DbManager.setup_database demoArticle 3).2
        demoArticleDup 4).1 = false ∧
      (DbManager.save_article (DbManager.save_article DbManager.setup_database demoArticle 3).2
        demoArticleDup 4).2 =
        (DbManager.save_article DbManager.setup_database demoArticle 3).2 ∧
      (DbManager.save_article DbManager.setup_database demoArticle 3).2.rows.countP
        (fun r => r.url == demoArticle.url) = 1) :=
  ⟨c1_save_dedup_idempotence.1 demoStoreWithU1 demoArticleDup 7 (by decide),
    c1_save_dedup_idempotence.2 DbManager.setup_database demoArticle demoArticleDup 3 4
      (by decide) (by decide)⟩

/-- C3 (`confirmed`).  Every store state reachable from schema setup
through `save_article` and `delete_article` keeps urls pairwise distinct:
`url` is the unique natural key. -/
theorem c3_url_unique_invariant :
    ∀ (st : DbManager.Store), DbManager.Reachable st →
      (st.rows.map (fun r => r.url)).Nodup :=
  fun _ h => reachable_nodup_aux h

/-- Witness for C3: the invariant at a concrete reachable state (setup,
two saves of distinct urls, one delete). -/
theorem c3_url_unique_invariant_witness :
    (((DbManager.delete_article
        (DbManager.save_article
          (DbManager.save_article DbManager.setup_database demoArticle 3).2
          ⟨"t3", "u3", "b3", false⟩ 4).2 "u1").2).rows.map (fun r => r.url)).Nodup :=
  c3_url_unique_invariant _
    (DbManager.Reachable.delete "u1"
      (DbManager.Reachable.save ⟨"t3", "u3", "b3", false⟩ 4
        (DbManager.Reachable.save demoArticle 3 DbManager.Reachable.setup)))

/-! Helper lemmas about `ORDER BY date_scraped DESC` and pagination. -/

/-- Inserting a row dated strictly before every row of a list settles at
its end. -/
theorem insertDesc_eq_append {r : DbManager.Row} :
    ∀ {l : List DbManager.Row}, (∀ y ∈ l, r.date_scraped < y.date_scraped) →
      DbManager.insertDesc r l = l ++ [r] := by
  intro l
  induction l with
  | nil => intro _; simp [DbManager.insertDesc]
  | cons y ys ih =>
    intro h
    have hy : r.date_scraped < y.date_scraped := h y (List.mem_cons_self y ys)
    simp [DbManager.insertDesc, hy, ih (fun z hz => h z (List.mem_cons_of_mem y hz))]

/-- On rows listed in strictly increasing `date_scraped` order, the
descending sort is exactly the reversed insertion order. -/
theorem sortByDateDesc_eq_reverse :
    ∀ {l : List DbManager.Row},
      List.Pairwise (fun x y => x.date_scraped < y.date_scraped) l →
      DbManager.sortByDateDesc l = l.reverse := by
  intro l
  induction l with
  | nil => intro _; simp [DbManager.sortByDateDesc]
  | cons x xs ih =>
    intro h
    rcases List.pairwise_cons.mp h with ⟨hx, hxs⟩
    have : DbManager.sortByDateDesc (x :: xs) = DbManager.insertDesc x xs.reverse := by
      simp [DbManager.sortByDateDesc, ih hxs]
    rw [this, insertDesc_eq_append (fun y hy => hx y (List.mem_reverse.mp hy)),
      List.reverse_cons]

/-- `insertDesc` adds one row. -/
theorem insertDesc_length (r : DbManager.Row) :
    ∀ (l : List DbManager.Row), (DbManager.insertDesc r l).length = l.length + 1 := by
  intro l
  induction l with
  | nil => simp [DbManager.insertDesc]
  | cons y ys ih =>
    by_cases h : r.date_scraped < y.date_scraped
    · simp [DbManager.insertDesc, h, ih]
    · simp [DbManager.insertDesc, h]

/-- Sorting preserves the number of rows. -/
theorem sortByDateDesc_length :
    ∀ (l : List DbManager.Row), (DbManager.sortByDateDesc l).length = l.length := by
  intro l
  induction l with
  | nil => rfl
  | cons x xs ih => simp [DbManager.sortByDateDesc, insertDesc_length, ih]

/-- C8 (`confirmed`).  When the stored rows carry strictly increasing
`date_scraped` stamps in insertion order (as the store assigns them, one
`now()` per insert), `get_recent_articles n` is exactly the reversal of
the last `n` inserted rows — the n most recent, ordered by date
descending — of length exactly `n` whenever `n ≤ total_count`, and never
longer than `n`. -/
theorem c8_recent_returns_most_recent :
    ∀ (st : DbManager.Store) (n : Nat),
      List.Pairwise (fun x y => x.date_scraped < y.date_scraped) st.rows →
        DbManager.get_recent_articles st n = st.rows.reverse.take n ∧
        (n ≤ DbManager.get_total_count st →
          (DbManager.get_recent_articles st n).length = n) ∧
        (DbManager.get_recent_articles st n).length ≤ n := by
  intro st n h
  have hs : DbManager.get_recent_articles st n = st.rows.reverse.take n := by
    simp [DbManager.get_recent_articles, sortByDateDesc_eq_reverse h]
  refine ⟨hs, ?_, ?_⟩
  · intro hn
    simp [hs, List.length_take]
    exact hn
  · simp [hs, List.length_take]

/-- A three-row store with strictly increasing timestamps. -/
def demoStore3 : DbManager.Store :=
  ⟨[⟨1, "t1", "u1", "b", false, 1⟩, ⟨2, "t2", "u2", "b", false, 2⟩,
    ⟨3, "t3", "u3", "b", false, 3⟩], 4⟩

/-- Witness for C8 on the three-row store with `n = 2`. -/
theorem c8_recent_returns_most_recent_witness :
    DbManager.get_recent_articles demoStore3 2 = demoStore3.rows.reverse.take 2 ∧
      (2 ≤ DbManager.get_total_count demoStore3 →
        (DbManager.get_recent_articles demoStore3 2).length = 2) ∧
      (DbManager.get_recent_articles demoStore3 2).length ≤ 2 :=
  c8_recent_returns_most_recent demoStore3 2 (by decide)

/-- One page of results glued after the pages before it reconstructs the
prefix: `k` pages of size `L` cover any list of at most `k * L` rows. -/
theorem join_pages_eq :
    ∀ (k L : Nat) (xs : List DbManager.Row), xs.length ≤ k * L →
      ((List.range k).map (fun i => (xs.drop (i * L)).take L)).flatten = xs := by
  intro k
  induction k with
  | zero =>
    intro L xs h
    simp at h
    simp [h]
  | succ k ih =>
    intro L xs h
    rw [List.range_succ_eq_map, List.map_cons, List.map_map]
    have hdrop : ∀ i : Nat, ((fun i => (xs.drop (i * L)).take L) ∘ Nat.succ) i =
        ((xs.drop L).drop (i * L)).take L := by
      intro i
      have hix : Nat.succ i * L = L + i * L := by
        rw [Nat.succ_mul, Nat.add_comm]
      simp only [Function.comp_apply, hix, List.drop_drop]
    have hmap : (List.map ((fun i => (xs.drop (i * L)).take L) ∘ Nat.succ) (List.range k)) =
        (List.map (fun i => ((xs.drop L).drop (i * L)).take L) (List.range k)) :=
      List.map_congr_left (fun i _ => hdrop i)
    have hlen2 : (xs.drop L).length ≤ k * L := by
      simp only [List.length_drop]
      have : (k + 1) * L = k * L + L := by rw [Nat.add_mul, Nat.one_mul]
      omega
    rw [hmap, List.flatten_cons, ih L (xs.drop L) hlen2]
    simp

/-- C9 (`confirmed`).  For any store, optional keyword and page size
`L ≥ 1`, `GET /articles` reports `total_pages = ⌈total_count / L⌉` (on
every page), reports the matching total, and the concatenation of pages
`1, 2, ..., total_pages` is exactly the full matching list ordered by
`date_scraped` descending — no gaps, no repeats. -/
theorem c9_pagination_reconstructs :
    ∀ (st : DbManager.Store) (L : Nat) (kw : Option String), 1 ≤ L →
      (∀ p, (App.get_articles st p L kw).total_pages =
        (App.matchingRows st kw).length ⌈/⌉ L) ∧
      (∀ p, (App.get_articles st p L kw).total_count =
        (App.matchingRows st kw).length) ∧
      ((List.range ((App.get_articles st 1 L kw).total_pages)).map
          (fun i => (App.get_articles st (i + 1) L kw).articles)).flatten =
        DbManager.sortByDateDesc (App.matchingRows st kw) := by
  intro st L kw hL
  have htp : ∀ p, (App.get_articles st p L kw).total_pages =
      (App.matchingRows st kw).length ⌈/⌉ L := by
    intro p
    simp [App.get_articles, Nat.ceilDiv_eq_add_pred_div]
  refine ⟨htp, fun p => by simp [App.get_articles], ?_⟩
  have hitems : ∀ i : Nat, (App.get_articles st (i + 1) L kw).articles =
      ((DbManager.sortByDateDesc (App.matchingRows st kw)).drop (i * L)).take L := by
    intro i
    simp [App.get_articles]
  have hlen : (DbManager.sortByDateDesc (App.matchingRows st kw)).length =
      (App.matchingRows st kw).length := sortByDateDesc_length _
  have hcover : (DbManager.sortByDateDesc (App.matchingRows st kw)).length ≤
      ((App.matchingRows st kw).length ⌈/⌉ L) * L := by
    rw [hlen]
    have := le_smul_ceilDiv (b := (App.matchingRows st kw).length)
      (a := L) (Nat.lt_of_lt_of_le Nat.zero_lt_one hL)
    simpa [smul_eq_mul, Nat.mul_comm] using this
  calc ((List.range ((App.get_articles st 1 L kw).total_pages)).map
          (fun i => (App.get_articles st (i + 1) L kw).articles)).flatten
      = ((List.range ((App.matchingRows st kw).length ⌈/⌉ L)).map
          (fun i => ((DbManager.sortByDateDesc (App.matchingRows st kw)).drop (i * L)).take L)).flatten := by
        rw [htp 1]
        exact congrArg List.flatten (List.map_congr_left (fun i _ => hitems i))
    _ = DbManager.sortByDateDesc (App.matchingRows st kw) :=
        join_pages_eq _ L _ hcover

/-- Witness for C9: the three-row store, page size 2, no keyword. -/
theorem c9_pagination_reconstructs_witness :
    (∀ p, (App.get_articles demoStore3 p 2 none).total_pages =
      (App.matchingRows demoStore3 none).length ⌈/⌉ 2) ∧
    (∀ p, (App.get_articles demoStore3 p 2 none).total_count =
      (App.matchingRows demoStore3 none).length) ∧
    ((List.range ((App.get_articles demoStore3 1 2 none).total_pages)).map
        (fun i => (App.get_articles demoStore3 (i + 1) 2 none).articles)).flatten =
      DbManager.sortByDateDesc (App.matchingRows demoStore3 none) :=
  c9_pagination_reconstructs demoStore3 2 none (by decide)

/-! Classification and extraction claims. -/

/-- A link carrying both the live marker and a video marker. -/
def liveAvLink : String := "https://www.bbc.com/live/av/x"

/-- Counterexample to C4 as stated: this link's path contains the live
marker, yet the attribute-based discovery (`bbc_scraper.py`) drops the
candidate entirely instead of keeping it with `is_live = true`. -/
theorem c4_classification_counterexample :
    strContains liveAvLink "/live/" = true ∧
      BbcScraper.classifyCard liveAvLink = none := by
  constructor
  · decide
  · decide

/-- C4 (`corrected`).  The selector-based discovery (`bbc.py`) classifies
with the claimed priority: live marker → kept live (regardless of other
markers), else video marker → dropped, else kept non-live.  The
attribute-based discovery (`bbc_scraper.py`) instead gives the video
check priority: any link containing `/av/` or `/videos/` is dropped even
when it also contains `/live/`; links without video markers are kept,
live iff they contain `/live/`. -/
theorem c4_classification_rules :
    (∀ link : String,
      (strContains link "/live/" = true → Bbc.classifyHeadline link = some true) ∧
      (strContains link "/live/" = false → strContains link "/av/" = true →
        Bbc.classifyHeadline link = none) ∧
      (strContains link "/live/" = false → strContains link "/av/" = false →
        Bbc.classifyHeadline link = some false)) ∧
    (∀ link : String,
      ((strContains link "/av/" || strContains link "/videos/") = true →
        BbcScraper.classifyCard link = none) ∧
      ((strContains link "/av/" || strContains link "/videos/") = false →
        BbcScraper.classifyCard link = some (strContains link "/live/"))) := by
  constructor
  · intro link
    refine ⟨fun h => ?_, fun h1 h2 => ?_, fun h1 h2 => ?_⟩
    · simp [Bbc.classifyHeadline, h]
    · simp [Bbc.classifyHeadline, h1, h2]
    · simp [Bbc.classifyHeadline, h1, h2]
  · intro link
    refine ⟨fun h => ?_, fun h => ?_⟩
    · simp [BbcScraper.classifyCard, h]
    · simp [BbcScraper.classifyCard, h]

/-- Witness for C4: instantiating both rule sets on concrete links. -/
theorem c4_classification_rules_witness :
    Bbc.classifyHeadline liveAvLink = some true ∧
      BbcScraper.classifyCard "https://www.bbc.com/av/x" = none ∧
      BbcScraper.classifyCard "https://www.bbc.com/news/x" =
        some (strContains "https://www.bbc.com/news/x" "/live/") :=
  ⟨(c4_classification_rules.1 liveAvLink).1 (by decide),
    (c4_classification_rules.2 "https://www.bbc.com/av/x").1 (by decide),
    (c4_classification_rules.2 "https://www.bbc.com/news/x").2 (by decide)⟩

/-- C5 (`corrected`).  On a fetched standard document with an article
container, both extractors build the space-joined concatenation of the
stripped non-empty paragraphs; `bbc.py` returns it whole, while
`bbc_scraper.py` returns only its first 600 characters
(`body_text[:600]`). -/
theorem c5_standard_extraction_body :
    ∀ (url : String) (h1 : Option String) (paras : List String),
      Bbc.get_article_content url (.resp 200 ⟨h1, some paras⟩) =
        some ⟨(h1.map pyStrip).getD "", joinParagraphs paras, url⟩ ∧
      BbcScraper.get_article_content url (.resp 200 ⟨h1, some paras⟩) =
        some ⟨(h1.map pyStrip).getD "", pySlice (joinParagraphs paras) 600, url⟩ := by
  intro url h1 paras
  constructor
  · rfl
  · rfl

/-- A paragraph text of 601 identical characters. -/
def longPara : String := String.mk (List.replicate 601 'a')

/-- Stripping a run of a non-whitespace character changes nothing. -/
theorem pyStrip_replicate_a (n : Nat) :
    pyStrip (String.mk (List.replicate n 'a')) = String.mk (List.replicate n 'a') := by
  have hd : List.dropWhile Char.isWhitespace (List.replicate n 'a') =
      List.replicate n 'a' := by
    cases n with
    | zero => rfl
    | succ m =>
      rw [List.replicate_succ, List.dropWhile_cons]
      simp
  unfold pyStrip
  rw [show (String.mk (List.replicate n 'a')).toList = List.replicate n 'a' from rfl,
    hd, List.reverse_replicate, hd, List.reverse_replicate]

set_option maxRecDepth 4000 in
/-- The joined body of the single long paragraph is the paragraph
itself. -/
theorem joinParagraphs_longPara : joinParagraphs [longPara] = longPara := by
  have hne : longPara.isEmpty = false := rfl
  have hs : pyStrip longPara = longPara := pyStrip_replicate_a 601
  rw [show joinParagraphs [longPara] =
      pyJoin " " (([pyStrip longPara]).filter (fun s => ¬ s.isEmpty)) from rfl, hs]
  rw [List.filter_cons]
  simp [hne, pyJoin]

/-- Counterexample to C5 as stated: on a 601-character paragraph the
`bbc_scraper.py` extractor's body is not the full joined text — it is cut
to 600 characters. -/
theorem c5_standard_extraction_counterexample :
    (BbcScraper.get_article_content "u" (.resp 200 ⟨some "T", some [longPara]⟩)).map
      (fun c => c.body) ≠ some (joinParagraphs [longPara]) := by
  intro h
  have hres : (BbcScraper.get_article_content "u"
      (.resp 200 ⟨some "T", some [longPara]⟩)).map (fun c => c.body) =
      some (pySlice (joinParagraphs [longPara]) 600) := rfl
  rw [hres] at h
  have hbody : pySlice (joinParagraphs [longPara]) 600 = joinParagraphs [longPara] :=
    Option.some.inj h
  have hlen := congrArg String.length hbody
  rw [joinParagraphs_longPara] at hlen
  have h600 : (pySlice longPara 600).length = 600 := by
    rw [show (pySlice longPara 600).length =
        ((List.replicate 601 'a').take 600).length from rfl,
      List.length_take, List.length_replicate]
    omega
  have h601 : longPara.length = 601 := by
    rw [show longPara.length = (List.replicate 601 'a').length from rfl,
      List.length_replicate]
  omega

/-- C6 (`confirmed`).  On a fetched live document, extraction returns a
present body equal to the document-order concatenation of each summary
point's nested paragraph text followed by a period and a space; with zero
summary items the body is the empty string, still a present result. -/
theorem c6_live_extraction_body :
    (∀ (url : String) (items : List (Option String)),
      BbcScraper.get_live_article_content url (.resp 200 ⟨items⟩) =
        some ⟨(items.filterMap id).foldr (fun t r => t ++ ". " ++ r) "", url⟩) ∧
    (∀ url : String,
      BbcScraper.get_live_article_content url (.resp 200 ⟨[]⟩) = some ⟨"", url⟩) := by
  have haux : ∀ (items : List (Option String)) (acc : String),
      items.foldl (fun acc p => match p with
        | some t => acc ++ t ++ ". "
        | none => acc) acc =
      acc ++ (items.filterMap id).foldr (fun t r => t ++ ". " ++ r) "" := by
    intro items
    induction items with
    | nil => intro acc; simp [String.append_empty]
    | cons p ps ih =>
      intro acc
      cases p with
      | none =>
        rw [show List.filterMap id (none :: ps) = List.filterMap id ps from rfl,
          List.foldl_cons]
        exact ih acc
      | some t =>
        rw [show List.filterMap id (some t :: ps) = t :: List.filterMap id ps from rfl,
          List.foldr_cons, List.foldl_cons]
        refine (ih (acc ++ t ++ ". ")).trans ?_
        simp [String.append_assoc]
  have hcollect : ∀ items : List (Option String),
      collectSummary items =
        (items.filterMap id).foldr (fun t r => t ++ ". " ++ r) "" := by
    intro items
    have := haux items ""
    simpa [collectSummary, String.empty_append] using this
  constructor
  · intro url items
    simp [BbcScraper.get_live_article_content, requests_get, hcollect]
  · intro url
    simp [BbcScraper.get_live_article_content, requests_get, collectSummary]

/-! Orchestrator claims. -/

/-- The three facts used about one candidate step: the store grows by
exactly the reported count, urls present stay present, and a url already
present is never the fetched one. -/
theorem processCandidate_spec (fs : String → FetchResult Doc)
    (fl : String → FetchResult LiveDoc) (db : DbManager.Store) (now : Nat)
    (c : Candidate) :
    (BbcScraper.processCandidate fs fl db now c).1.rows.length =
      db.rows.length + (BbcScraper.processCandidate fs fl db now c).2.1 ∧
    (∀ u, DbManager.article_exists db u = true →
      DbManager.article_exists (BbcScraper.processCandidate fs fl db now c).1 u = true) ∧
    (∀ u, DbManager.article_exists db u = true →
      u ∉ (BbcScraper.processCandidate fs fl db now c).2.2) := by
  have hsavemono : ∀ (a : DbManager.ArticleData) (u : String),
      DbManager.article_exists db u = true →
      DbManager.article_exists (DbManager.save_article db a now).2 u = true := by
    intro a u h
    by_cases hex2 : DbManager.article_exists db a.url
    · rw [save_article_exists_eq hex2]
      exact h
    · rw [save_article_not_exists_eq (by simpa using hex2)]
      rw [DbManager.article_exists] at h ⊢
      simp [List.any_append, h]
  have hsavelen : ∀ (a : DbManager.ArticleData),
      (DbManager.save_article db a now).2.rows.length =
        db.rows.length + (if (DbManager.save_article db a now).1 = true then 1 else 0) := by
    intro a
    by_cases hex2 : DbManager.article_exists db a.url
    · rw [save_article_exists_eq hex2]
      simp
    · rw [save_article_not_exists_eq (by simpa using hex2)]
      simp
  unfold BbcScraper.processCandidate
  by_cases hex : DbManager.article_exists db c.url
  · simp only [hex, if_true]
    exact ⟨by simp, fun u h => h, fun u h => by simp⟩
  · simp only [hex, Bool.false_eq_true, if_false]
    have hne : ∀ u, DbManager.article_exists db u = true → u ∉ [c.url] := by
      intro u h hmem
      rw [List.mem_singleton] at hmem
      rw [hmem] at h
      rw [h] at hex
      exact hex rfl
    by_cases hl : c.live
    · cases hoc : BbcScraper.get_live_article_content c.url (fl c.url) with
      | none =>
        simp only [hl, if_true, hoc]
        exact ⟨by simp, fun u h => h, hne⟩
      | some lc =>
        simp only [hl, if_true, hoc]
        exact ⟨hsavelen _, fun u h => hsavemono _ u h, hne⟩
    · cases hoc : BbcScraper.get_article_content c.url (fs c.url) with
      | none =>
        simp only [Bool.not_eq_true] at hl
        simp only [hl, Bool.false_eq_true, if_false, hoc]
        exact ⟨by simp, fun u h => h, hne⟩
      | some ac =>
        simp only [Bool.not_eq_true] at hl
        simp only [hl, Bool.false_eq_true, if_false, hoc]
        exact ⟨hsavelen _, fun u h => hsavemono _ u h, hne⟩

/-- The scrape loop grows the store by exactly the count it returns. -/
theorem scrapeLoop_count (fs : String → FetchResult Doc)
    (fl : String → FetchResult LiveDoc) :
    ∀ (cs : List Candidate) (db : DbManager.Store) (now : Nat),
      (BbcScraper.scrapeLoop fs fl cs db now).2.1.rows.length =
        db.rows.length + (BbcScraper.scrapeLoop fs fl cs db now).1 := by
  intro cs
  induction cs with
  | nil => intro db now; simp [BbcScraper.scrapeLoop]
  | cons c cs ih =>
    intro db now
    have hpc := (processCandidate_spec fs fl db now c).1
    simp only [BbcScraper.scrapeLoop]
    rcases hval : BbcScraper.processCandidate fs fl db now c with ⟨db2, inc, fetched⟩
    rw [hval] at hpc
    have hih := ih db2 (now + 1)
    rcases hloop : BbcScraper.scrapeLoop fs fl cs db2 (now + 1) with ⟨n, db3, rest⟩
    rw [hloop] at hih
    simp only [] at hpc hih ⊢
    omega

/-- A run of the CSV orchestrator whose processed candidates are all
standard (non-live) completes normally. -/
theorem bbcLoop_ok_of_no_live (fs : String → FetchResult Doc)
    (fl : String → FetchResult LiveDoc) :
    ∀ (cs : List Candidate), (∀ c ∈ cs, c.live = false) →
      ∃ l, Bbc.bbcLoop fs fl cs = Except.ok l := by
  intro cs
  induction cs with
  | nil => intro _; exact ⟨[], rfl⟩
  | cons c cs ih =>
    intro h
    have hc : c.live = false := h c (List.mem_cons_self c cs)
    obtain ⟨l, hl⟩ := ih (fun x hx => h x (List.mem_cons_of_mem c hx))
    by_cases had : (Bbc.get_article_content c.url (fs c.url)) = none
    · exact ⟨l, by simp [Bbc.bbcLoop, hc, had, hl]⟩
    · obtain ⟨a, ha⟩ := Option.ne_none_iff_exists'.mp had
      exact ⟨⟨a.title, a.body, a.url⟩ :: l, by simp [Bbc.bbcLoop, hc, ha, hl]⟩

/-- C2 (`corrected`).  The database orchestrator
(`bbc_scraper.scrape_bbc_articles_to_db`) completes normally on every
candidate list and every fetch outcome — absences, non-2xx responses and
raised transport exceptions alike — returning a count equal to the number
of rows it added.  The CSV orchestrator (`bbc.scrape_bbc_articles`)
completes normally whenever its processed candidates are all standard;
its live branch, however, is not failure-tolerant (see the
counterexample). -/
theorem c2_run_completes_with_count :
    (∀ (fs : String → FetchResult Doc) (fl : String → FetchResult LiveDoc)
        (links : List Candidate) (db : DbManager.Store) (max_articles now : Nat),
      (BbcScraper.scrape_bbc_articles_to_db fs fl links db max_articles now).2.1.rows.length =
        db.rows.length +
          (BbcScraper.scrape_bbc_articles_to_db fs fl links db max_articles now).1) ∧
    (∀ (fs : String → FetchResult Doc) (fl : String → FetchResult LiveDoc)
        (links : List Candidate) (max_articles : Nat),
      (∀ c ∈ links.take max_articles, c.live = false) →
      ∃ l, Bbc.scrape_bbc_articles fs fl links max_articles = Except.ok l) := by
  constructor
  · intro fs fl links db max_articles now
    unfold BbcScraper.scrape_bbc_articles_to_db
    by_cases hemp : links.isEmpty
    · simp [hemp]
    · simp only [hemp, Bool.false_eq_true, if_false]
      exact scrapeLoop_count fs fl (links.take max_articles) db now
  · intro fs fl links max_articles h
    unfold Bbc.scrape_bbc_articles
    by_cases hemp : links.isEmpty
    · exact ⟨[], by simp [hemp]⟩
    · obtain ⟨l, hl⟩ := bbcLoop_ok_of_no_live fs fl (links.take max_articles) h
      exact ⟨l, by simp [hemp, hl]⟩

/-- A fetch oracle for standard pages that always raises. -/
def exnFetchStd : String → FetchResult Doc := fun _ => .exn "boom"

/-- A fetch oracle for live pages that always raises. -/
def exnFetchLive : String → FetchResult LiveDoc := fun _ => .exn "boom"

/-- Counterexample to C2 as stated: with a single live candidate whose
fetch fails, `bbc.scrape_bbc_articles` raises a `TypeError` out of the
run (the code assigns `article_data["title"]` without checking for
`None`) instead of completing with a count. -/
theorem c2_live_fetch_failure_counterexample :
    Bbc.scrape_bbc_articles exnFetchStd exnFetchLive [⟨"t", "u", true⟩] 10 =
      Except.error "TypeError: NoneType object does not support item assignment" := by
  rfl

/-- Witness for C2: the count identity on a concrete two-candidate run
with all fetches failing, and a normal completion of the CSV orchestrator
on a standard-only candidate list. -/
theorem c2_run_completes_with_count_witness :
    ((BbcScraper.scrape_bbc_articles_to_db exnFetchStd exnFetchLive
        [⟨"t1", "u1", false⟩, ⟨"t2", "u2", true⟩] DbManager.setup_database 10 0).2.1.rows.length =
      DbManager.setup_database.rows.length +
        (BbcScraper.scrape_bbc_articles_to_db exnFetchStd exnFetchLive
          [⟨"t1", "u1", false⟩, ⟨"t2", "u2", true⟩] DbManager.setup_database 10 0).1) ∧
    (∃ l, Bbc.scrape_bbc_articles exnFetchStd exnFetchLive
        [⟨"t1", "u1", false⟩] 10 = Except.ok l) :=
  ⟨c2_run_completes_with_count.1 exnFetchStd exnFetchLive
      [⟨"t1", "u1", false⟩, ⟨"t2", "u2", true⟩] DbManager.setup_database 10 0,
    c2_run_completes_with_count.2 exnFetchStd exnFetchLive
      [⟨"t1", "u1", false⟩] 10 (by decide)⟩

/-- Urls present before the loop never occur in the loop's fetch log. -/
theorem scrapeLoop_no_fetch_of_exists (fs : String → FetchResult Doc)
    (fl : String → FetchResult LiveDoc) {u : String} :
    ∀ (cs : List Candidate) (db : DbManager.Store) (now : Nat),
      DbManager.article_exists db u = true →
        u ∉ (BbcScraper.scrapeLoop fs fl cs db now).2.2 := by
  intro cs
  induction cs with
  | nil => intro db now _; simp [BbcScraper.scrapeLoop]
  | cons c cs ih =>
    intro db now h
    have hstep := (processCandidate_spec fs fl db now c).2.2 u h
    have hmono := (processCandidate_spec fs fl db now c).2.1 u h
    simp only [BbcScraper.scrapeLoop]
    rcases hval : BbcScraper.processCandidate fs fl db now c with ⟨db2, inc, fetched⟩
    rw [hval] at hstep hmono
    have htail := ih db2 (now + 1) hmono
    rcases hloop : BbcScraper.scrapeLoop fs fl cs db2 (now + 1) with ⟨n, db3, rest⟩
    rw [hloop] at htail
    simp only [] at hstep htail ⊢
    simp only [List.mem_append]
    intro hmem
    rcases hmem with hmem | hmem
    · exact hstep hmem
    · exact htail hmem

/-- C7 (`confirmed`).  In a database-orchestrator run, a url already
stored when the run starts is never fetched: the duplicate check
short-circuits all network retrieval for it (the run's fetch log records
every url passed to a fetch, and such urls never appear in it). -/
theorem c7_no_fetch_for_existing_url :
    ∀ (fs : String → FetchResult Doc) (fl : String → FetchResult LiveDoc)
      (links : List Candidate) (db : DbManager.Store) (max_articles now : Nat)
      (u : String),
      DbManager.article_exists db u = true →
        u ∉ (BbcScraper.scrape_bbc_articles_to_db fs fl links db max_articles now).2.2 := by
  intro fs fl links db max_articles now u h
  unfold BbcScraper.scrape_bbc_articles_to_db
  by_cases hemp : links.isEmpty
  · simp [hemp]
  · simp only [hemp, Bool.false_eq_true, if_false]
    exact scrapeLoop_no_fetch_of_exists fs fl (links.take max_articles) db now h

/-- Witness for C7: a store already holding `u1` and a run whose
candidate list names `u1` first — `u1` is absent from the fetch log. -/
theorem c7_no_fetch_for_existing_url_witness :
    "u1" ∉ (BbcScraper.scrape_bbc_articles_to_db exnFetchStd exnFetchLive
      [⟨"t1", "u1", false⟩, ⟨"t2", "u2", false⟩] demoStoreWithU1 10 0).2.2 :=
  c7_no_fetch_for_existing_url exnFetchStd exnFetchLive
    [⟨"t1", "u1", false⟩, ⟨"t2", "u2", false⟩] demoStoreWithU1 10 0 "u1" (by decide)

/-! Keyword search and SQL injection. -/

/-- A keyword carrying a single-quote character. -/
def quotedKeyword : String := "a" ++ sq ++ "b"

/-- A row whose title contains `quotedKeyword` as a substring. -/
def quotedRow : DbManager.Row := ⟨1, "xa" ++ sq ++ "bz", "u1", "body", false, 3⟩

/-- A store holding `quotedRow`. -/
def quotedStore : DbManager.Store := ⟨[quotedRow], 2⟩

set_option maxRecDepth 4000 in
/-- C10 (`confirmed`).  `search_articles` interpolates the keyword
verbatim (twice) into the SQL text, so a keyword containing a single
quote re-lexes the statement and the database raises a syntax error
(`none`) on every store — even though a stored record's title contains
that keyword as a substring and the parameterized HTTP API
(`get_articles`) returns exactly that record for the same keyword. -/
theorem c10_search_interpolation_injection :
    (∀ k : String, DbManager.searchQuery k =
      "SELECT title, url, body, is_live, date_scraped FROM articles WHERE title LIKE "
        ++ sq ++ "%" ++ k
        ++ ("%" ++ sq ++ " OR body LIKE " ++ sq ++ "%") ++ k
        ++ ("%" ++ sq ++ " ORDER BY date_scraped DESC")) ∧
    strContains quotedKeyword sq = true ∧
    (∀ st : DbManager.Store, DbManager.search_articles st quotedKeyword = none) ∧
    DbManager.likeMatch quotedRow.title quotedKeyword = true ∧
    (App.get_articles quotedStore 1 10 (some quotedKeyword)).articles = [quotedRow] := by
  have hplan : DbManager.searchPlan (DbManager.searchQuery quotedKeyword) = none := rfl
  refine ⟨?_, ?_, ?_, ?_, ?_⟩
  · intro k
    simp [DbManager.searchQuery, String.append_assoc]
  · decide
  · intro st
    simp [DbManager.search_articles, hplan]
  · decide
  · decide

end MyJarvis
